import Mathlib

/-!
# BailErrorHandler (src/bailerror.cc)

A shallow embedding of the single method of the file,

    void BailErrorHandler::handle_text(Seriousness s, const String &text)
    {
        _errh->handle_text(s, text);
        if (s >= ERR_ERROR)
            exit(1);
    }

The method has effects only: a virtual call on the wrapped handler and a
possible call of exit.  Both are made explicit by state passing: a call ends
in an Outcome (normal return, a failure leaving the callee, or the end of the
process with a status), and the process state records every report the wrapped
handler was handed.
-/

namespace BailError

/-- Seriousness is the C++ enumeration of diagnostic levels; the comparison
in the source is the numeric comparison of the enumerators. -/
abbrev Seriousness := Int

/-- The ways a C++ call can end: it returns to its caller, a failure leaves
it (an exception unwinding through the caller), or the process ends with an
exit status.  Each carries the state reached at that point.  A callee that
never comes back is not represented: every call modelled here ends. -/
inductive Outcome (α ε : Type) where
  | returned (st : α) : Outcome α ε
  | threw (e : ε) (st : α) : Outcome α ε
  | exited (status : Int) (st : α) : Outcome α ε

/-- The state in which the call ended. -/
def Outcome.state {α ε : Type} : Outcome α ε → α
  | .returned st => st
  | .threw _ st => st
  | .exited _ st => st

/-- Whether control came back to the caller normally. -/
def Outcome.isReturned {α ε : Type} : Outcome α ε → Bool
  | .returned _ => true
  | _ => false

/-- The exit status, when the process was ended. -/
def Outcome.exitStatus {α ε : Type} : Outcome α ε → Option Int
  | .exited status _ => some status
  | _ => none

/-- The failure the caller observes, when one left the call. -/
def Outcome.failure {α ε : Type} : Outcome α ε → Option ε
  | .threw e _ => some e
  | _ => none

/-- Transport of the carried state, keeping the way the call ended. -/
def Outcome.mapState {α β ε : Type} (f : α → β) : Outcome α ε → Outcome β ε
  | .returned st => .returned (f st)
  | .threw e st => .threw e (f st)
  | .exited status st => .exited status (f st)

/-- The abstract ErrorHandler capability: a virtual handle_text whose body is
not part of this file.  It acts on its own environment (of type σ) and may end
in any of the three ways. -/
structure ErrorHandler (σ ε : Type) where
  handle_text : Seriousness → String → σ → Outcome σ ε

/-- The object: its only data member is the pointer _errh to the wrapped
handler. -/
structure BailErrorHandler (σ ε : Type) where
  _errh : ErrorHandler σ ε

/-- The process state around one BailErrorHandler: the object itself, the
reports handed to the wrapped handler so far (oldest first), and the wrapped
handler's environment. -/
structure Process (σ ε : Type) where
  self : BailErrorHandler σ ε
  received : List (Seriousness × String)
  env : σ

/-- The virtual call h->handle_text(s, text): the callee is handed the pair
(this is recorded), then its body runs on its environment. -/
def ErrorHandler.call {σ ε : Type} (h : ErrorHandler σ ε) (s : Seriousness) (text : String)
    (st : Process σ ε) : Outcome (Process σ ε) ε :=
  (h.handle_text s text st.env).mapState
    (fun env1 => { st with received := st.received ++ [(s, text)], env := env1 })

/-- The C library call exit(status): the process ends with that status. -/
def exit {α ε : Type} (status : Int) (st : α) : Outcome α ε :=
  .exited status st

/-- BailErrorHandler::handle_text.  The enumerator ERR_ERROR is declared in a
header that is not part of the file, so it is a parameter.  The statement
after the virtual call is reached only when that call returns. -/
def BailErrorHandler.handle_text {σ ε : Type} (ERR_ERROR : Seriousness) (s : Seriousness)
    (text : String) (st : Process σ ε) : Outcome (Process σ ε) ε :=
  match st.self._errh.call s text st with
  | .returned st1 =>
    if s ≥ ERR_ERROR then
      exit 1 st1
    else
      .returned st1
  | .threw e st1 => .threw e st1
  | .exited status st1 => .exited status st1

/-- A client that makes the given handle_text calls one after the other on the
same BailErrorHandler: the next call is made only when the previous one came
back; a failure that leaves a call, or the end of the process, ends the run. -/
def callSequence {σ ε : Type} (ERR_ERROR : Seriousness) :
    List (Seriousness × String) → Process σ ε → Outcome (Process σ ε) ε
  | [], st => .returned st
  | (s, text) :: rest, st =>
    match BailErrorHandler.handle_text ERR_ERROR s text st with
    | .returned st1 => callSequence ERR_ERROR rest st1
    | .threw e st1 => .threw e st1
    | .exited status st1 => .exited status st1

/-- The calls of a sequence up to and including the first one whose
seriousness is at least ERR_ERROR (all of them when there is none). -/
def throughFirstError (ERR_ERROR : Seriousness) :
    List (Seriousness × String) → List (Seriousness × String)
  | [] => []
  | c :: rest => if c.1 ≥ ERR_ERROR then [c] else c :: throughFirstError ERR_ERROR rest

/-- The environment a normally returning handler reaches after the given
reports, when one report takes env to step s text env. -/
def envAfter {σ : Type} (step : Seriousness → String → σ → σ) (env : σ)
    (calls : List (Seriousness × String)) : σ :=
  calls.foldl (fun e c => step c.1 c.2 e) env

/-! ## Sample collaborators, used to evaluate the definitions -/

/-- A wrapped handler that returns normally: it appends the text to its
output. -/
def printingHandler : ErrorHandler (List String) String :=
  ⟨fun _ text out => .returned (out ++ [text])⟩

/-- A wrapped handler whose handle_text fails: it throws the text. -/
def throwingHandler : ErrorHandler (List String) String :=
  ⟨fun _ text out => .threw text out⟩

/-- A wrapped handler that returns normally and only counts its reports. -/
def countingHandler : ErrorHandler Nat Unit :=
  ⟨fun _ _ n => .returned (n + 1)⟩

/-- A process whose BailErrorHandler wraps the counting handler. -/
def countingProcess : Process Nat Unit :=
  { self := ⟨countingHandler⟩, received := [], env := 0 }

/-- A process whose BailErrorHandler wraps the printing handler. -/
def printingProcess : Process (List String) String :=
  { self := ⟨printingHandler⟩, received := [], env := [] }

/-- A process whose BailErrorHandler wraps the throwing handler. -/
def throwingProcess : Process (List String) String :=
  { self := ⟨throwingHandler⟩, received := [], env := [] }

/-! ## Helper lemmas -/

/-- The virtual call when the callee returns normally. -/
theorem call_of_returned {σ ε : Type} (h : ErrorHandler σ ε) (s : Seriousness) (text : String)
    (st : Process σ ε) (env1 : σ) (hin : h.handle_text s text st.env = .returned env1) :
    h.call s text st
      = .returned { st with received := st.received ++ [(s, text)], env := env1 } := by
  simp [ErrorHandler.call, hin, Outcome.mapState]

/-- The virtual call when a failure leaves the callee. -/
theorem call_of_threw {σ ε : Type} (h : ErrorHandler σ ε) (s : Seriousness) (text : String)
    (st : Process σ ε) (e : ε) (env1 : σ) (hin : h.handle_text s text st.env = .threw e env1) :
    h.call s text st
      = .threw e { st with received := st.received ++ [(s, text)], env := env1 } := by
  simp [ErrorHandler.call, hin, Outcome.mapState]

/-- What handle_text does when the wrapped handler returns normally: the
result of the severity test alone. -/
theorem handle_text_of_returned {σ ε : Type} (ERR_ERROR s : Seriousness) (text : String)
    (st : Process σ ε) (env1 : σ)
    (hin : st.self._errh.handle_text s text st.env = .returned env1) :
    BailErrorHandler.handle_text ERR_ERROR s text st
      = if s ≥ ERR_ERROR then
          .exited 1 { st with received := st.received ++ [(s, text)], env := env1 }
        else
          .returned { st with received := st.received ++ [(s, text)], env := env1 } := by
  simp only [BailErrorHandler.handle_text, call_of_returned _ s text st env1 hin, exit]

/-- What handle_text does when a failure leaves the wrapped handler. -/
theorem handle_text_of_threw {σ ε : Type} (ERR_ERROR s : Seriousness) (text : String)
    (st : Process σ ε) (e : ε) (env1 : σ)
    (hin : st.self._errh.handle_text s text st.env = .threw e env1) :
    BailErrorHandler.handle_text ERR_ERROR s text st
      = .threw e { st with received := st.received ++ [(s, text)], env := env1 } := by
  simp only [BailErrorHandler.handle_text, call_of_threw _ s text st e env1 hin]

/-- The state in which handle_text ends, however the wrapped handler ends. -/
theorem handle_text_state {σ ε : Type} (ERR_ERROR s : Seriousness) (text : String)
    (st : Process σ ε) :
    (BailErrorHandler.handle_text ERR_ERROR s text st).state
      = { st with received := st.received ++ [(s, text)],
                  env := (st.self._errh.handle_text s text st.env).state } := by
  unfold BailErrorHandler.handle_text ErrorHandler.call
  cases h : st.self._errh.handle_text s text st.env with
  | returned env1 =>
    by_cases hs : s ≥ ERR_ERROR <;> simp [Outcome.mapState, Outcome.state, exit, hs]
  | threw e env1 => simp [Outcome.mapState, Outcome.state]
  | exited status env1 => simp [Outcome.mapState, Outcome.state]

/-- A run of calls against a wrapped handler that always returns normally:
the calls through the first one at or above ERR_ERROR are handed over, and
the run ends the process with status 1 exactly when there is such a call. -/
theorem callSequence_of_returning {σ ε : Type} (ERR_ERROR : Seriousness)
    (step : Seriousness → String → σ → σ) (errh : BailErrorHandler σ ε)
    (hret : ∀ s text env, errh._errh.handle_text s text env = .returned (step s text env))
    (calls : List (Seriousness × String)) :
    ∀ st : Process σ ε, st.self = errh →
      callSequence ERR_ERROR calls st
        = if calls.any (fun c => decide (c.1 ≥ ERR_ERROR)) then
            .exited 1 { st with
              received := st.received ++ throughFirstError ERR_ERROR calls,
              env := envAfter step st.env (throughFirstError ERR_ERROR calls) }
          else
            .returned { st with
              received := st.received ++ throughFirstError ERR_ERROR calls,
              env := envAfter step st.env (throughFirstError ERR_ERROR calls) } := by
  induction calls with
  | nil =>
    intro st _
    simp [callSequence, throughFirstError, envAfter]
  | cons c rest ih =>
    intro st hself
    obtain ⟨s, text⟩ := c
    have hin : st.self._errh.handle_text s text st.env = .returned (step s text st.env) := by
      rw [hself]; exact hret s text st.env
    by_cases hs : s ≥ ERR_ERROR
    · simp [callSequence, handle_text_of_returned ERR_ERROR s text st _ hin, hs,
        throughFirstError, envAfter]
    · rw [callSequence, handle_text_of_returned ERR_ERROR s text st _ hin]
      simp only [hs, if_false]
      rw [ih { st with received := st.received ++ [(s, text)], env := step s text st.env } hself]
      have hany : ((s, text) :: rest).any (fun c => decide (c.1 ≥ ERR_ERROR))
          = rest.any (fun c => decide (c.1 ≥ ERR_ERROR)) := by
        rw [List.any_cons, decide_eq_false hs, Bool.false_or]
      rw [hany]
      simp [throughFirstError, envAfter, hs, List.append_assoc]

/-- With no call at or above ERR_ERROR the whole sequence is handed over. -/
theorem throughFirstError_of_all_below (ERR_ERROR : Seriousness)
    (calls : List (Seriousness × String)) (hall : ∀ c ∈ calls, c.1 < ERR_ERROR) :
    throughFirstError ERR_ERROR calls = calls
      ∧ calls.any (fun c => decide (c.1 ≥ ERR_ERROR)) = false := by
  induction calls with
  | nil => simp [throughFirstError]
  | cons c rest ih =>
    have hc : ¬ c.1 ≥ ERR_ERROR := not_le.mpr (hall c (List.mem_cons_self c rest))
    have hrest := ih (fun d hd => hall d (List.mem_cons_of_mem c hd))
    refine ⟨?_, ?_⟩
    · simp only [throughFirstError, if_neg hc, hrest.1]
    · rw [List.any_cons, decide_eq_false hc, Bool.false_or, hrest.2]

/-- The cut is made right after the first call at or above ERR_ERROR. -/
theorem throughFirstError_append (ERR_ERROR : Seriousness)
    (before later : List (Seriousness × String)) (c : Seriousness × String)
    (hall : ∀ d ∈ before, d.1 < ERR_ERROR) (hc : c.1 ≥ ERR_ERROR) :
    throughFirstError ERR_ERROR (before ++ c :: later) = before ++ [c] := by
  induction before with
  | nil => simp [throughFirstError, hc]
  | cons d rest ih =>
    have hd : ¬ d.1 ≥ ERR_ERROR := not_le.mpr (hall d (List.mem_cons_self d rest))
    have hrest := ih (fun x hx => hall x (List.mem_cons_of_mem d hx))
    rw [List.cons_append, throughFirstError, if_neg hd, hrest, List.cons_append]

/-! ## The claims -/

/-- C1: for every severity s with s >= ERR_ERROR (equality included) and every
text (empty or not), when the wrapped handler returns from the delegated call,
handle_text has handed it exactly the one pair (s, text), this happened before
the end of the process, and the process exits with status exactly 1 instead of
returning. -/
theorem handle_text_error_exits {σ ε : Type} (ERR_ERROR s : Seriousness) (text : String)
    (st : Process σ ε) (env1 : σ) (hs : s ≥ ERR_ERROR)
    (hin : st.self._errh.handle_text s text st.env = .returned env1) :
    BailErrorHandler.handle_text ERR_ERROR s text st
      = .exited 1 { st with received := st.received ++ [(s, text)], env := env1 } := by
  rw [handle_text_of_returned ERR_ERROR s text st env1 hin, if_pos hs]

/-- Witness of C1 at s = ERR_ERROR = 3 and the empty text. -/
theorem handle_text_error_exits_witness :
    (3 : Seriousness) ≥ 3
      ∧ printingProcess.self._errh.handle_text 3 "" printingProcess.env = .returned [""]
      ∧ BailErrorHandler.handle_text 3 3 "" printingProcess
          = .exited 1 { printingProcess with received := [(3, "")], env := [""] } :=
  ⟨by decide, rfl, handle_text_error_exits 3 3 "" printingProcess [""] (by decide) rfl⟩

/-- C2: for every severity s strictly below ERR_ERROR and every text, when the
wrapped handler returns from the delegated call, handle_text has handed it
exactly the one pair (s, text) and returns normally to its caller; the process
is not ended. -/
theorem handle_text_below_returns {σ ε : Type} (ERR_ERROR s : Seriousness) (text : String)
    (st : Process σ ε) (env1 : σ) (hs : s < ERR_ERROR)
    (hin : st.self._errh.handle_text s text st.env = .returned env1) :
    BailErrorHandler.handle_text ERR_ERROR s text st
      = .returned { st with received := st.received ++ [(s, text)], env := env1 } := by
  rw [handle_text_of_returned ERR_ERROR s text st env1 hin, if_neg (not_le.mpr hs)]

/-- Witness of C2 at s = 0 below ERR_ERROR = 3. -/
theorem handle_text_below_returns_witness :
    (0 : Seriousness) < 3
      ∧ printingProcess.self._errh.handle_text 0 "starting up" printingProcess.env
          = .returned ["starting up"]
      ∧ BailErrorHandler.handle_text 3 0 "starting up" printingProcess
          = .returned { printingProcess with
              received := [(0, "starting up")], env := ["starting up"] } :=
  ⟨by decide, rfl,
    handle_text_below_returns 3 0 "starting up" printingProcess ["starting up"] (by decide) rfl⟩

/-- C3: for every severity s (below, at or above ERR_ERROR) and every text,
the empty one included, and however the wrapped handler ends, handle_text
hands the wrapped handler exactly the pair (s, text), once: the reports it
received are the earlier ones followed by (s, text) unaltered, and its
environment is the one its own handle_text reaches on (s, text). -/
theorem handle_text_forwards_verbatim {σ ε : Type} (ERR_ERROR s : Seriousness) (text : String)
    (st : Process σ ε) :
    (BailErrorHandler.handle_text ERR_ERROR s text st).state.received
        = st.received ++ [(s, text)]
      ∧ (BailErrorHandler.handle_text ERR_ERROR s text st).state.env
        = (st.self._errh.handle_text s text st.env).state := by
  rw [handle_text_state]
  exact ⟨rfl, rfl⟩

/-- C4, as stated, fails: with ERR_ERROR = 3, the call handle_text(3, "boom")
on a wrapped handler that throws does not end the process with status 1; the
failure "boom" is what leaves handle_text. -/
theorem inner_failure_at_error_not_exit :
    throwingProcess.self._errh.handle_text 3 "boom" throwingProcess.env = .threw "boom" []
      ∧ (3 : Seriousness) ≥ 3
      ∧ (BailErrorHandler.handle_text 3 3 "boom" throwingProcess).exitStatus ≠ some 1
      ∧ (BailErrorHandler.handle_text 3 3 "boom" throwingProcess).failure = some "boom" :=
  ⟨rfl, by decide, by decide, by decide⟩

/-- C4 amended: if the wrapped handler fails when handle_text(s, text)
delegates to it and s >= ERR_ERROR, then, after this one delegation, that same
failure leaves handle_text towards the caller; the severity test is not
reached and handle_text does not call exit. -/
theorem handle_text_error_inner_failure {σ ε : Type} (ERR_ERROR s : Seriousness)
    (text : String) (st : Process σ ε) (e : ε) (env1 : σ) (hs : s ≥ ERR_ERROR)
    (hin : st.self._errh.handle_text s text st.env = .threw e env1) :
    BailErrorHandler.handle_text ERR_ERROR s text st
        = .threw e { st with received := st.received ++ [(s, text)], env := env1 }
      ∧ (BailErrorHandler.handle_text ERR_ERROR s text st).exitStatus = none := by
  have _ := hs
  rw [handle_text_of_threw ERR_ERROR s text st e env1 hin]
  exact ⟨rfl, rfl⟩

/-- Witness of the amended C4 at s = 4 above ERR_ERROR = 3. -/
theorem handle_text_error_inner_failure_witness :
    (4 : Seriousness) ≥ 3
      ∧ throwingProcess.self._errh.handle_text 4 "boom" throwingProcess.env = .threw "boom" []
      ∧ BailErrorHandler.handle_text 3 4 "boom" throwingProcess
          = .threw "boom" { throwingProcess with received := [(4, "boom")], env := [] }
      ∧ (BailErrorHandler.handle_text 3 4 "boom" throwingProcess).exitStatus = none :=
  ⟨by decide, rfl,
    handle_text_error_inner_failure 3 4 "boom" throwingProcess "boom" [] (by decide) rfl⟩

/-- C5: if the wrapped handler fails when handle_text(s, text) delegates to it
and s is strictly below ERR_ERROR, the caller observes that same failure: it
is not swallowed (handle_text does not return normally), not replaced by
another one, and the process is not ended. -/
theorem handle_text_below_inner_failure {σ ε : Type} (ERR_ERROR s : Seriousness)
    (text : String) (st : Process σ ε) (e : ε) (env1 : σ) (hs : s < ERR_ERROR)
    (hin : st.self._errh.handle_text s text st.env = .threw e env1) :
    BailErrorHandler.handle_text ERR_ERROR s text st
        = .threw e { st with received := st.received ++ [(s, text)], env := env1 }
      ∧ (BailErrorHandler.handle_text ERR_ERROR s text st).failure = some e
      ∧ (BailErrorHandler.handle_text ERR_ERROR s text st).isReturned = false
      ∧ (BailErrorHandler.handle_text ERR_ERROR s text st).exitStatus = none := by
  have _ := hs
  rw [handle_text_of_threw ERR_ERROR s text st e env1 hin]
  exact ⟨rfl, rfl, rfl, rfl⟩

/-- Witness of C5 at s = 2 below ERR_ERROR = 3. -/
theorem handle_text_below_inner_failure_witness :
    (2 : Seriousness) < 3
      ∧ throwingProcess.self._errh.handle_text 2 "disk full" throwingProcess.env
          = .threw "disk full" []
      ∧ BailErrorHandler.handle_text 3 2 "disk full" throwingProcess
          = .threw "disk full" { throwingProcess with received := [(2, "disk full")], env := [] }
      ∧ (BailErrorHandler.handle_text 3 2 "disk full" throwingProcess).failure = some "disk full"
      ∧ (BailErrorHandler.handle_text 3 2 "disk full" throwingProcess).isReturned = false
      ∧ (BailErrorHandler.handle_text 3 2 "disk full" throwingProcess).exitStatus = none :=
  ⟨by decide, rfl,
    handle_text_below_inner_failure 3 2 "disk full" throwingProcess "disk full" []
      (by decide) rfl⟩

/-- C6: for every finite sequence of handle_text calls on one BailErrorHandler
in which every severity is strictly below ERR_ERROR, with a wrapped handler
that returns from every report, the run returns normally (at no point is
the process ended) and the wrapped handler has received exactly those pairs,
once each and in the order of the calls. -/
theorem callSequence_all_below {σ ε : Type} (ERR_ERROR : Seriousness)
    (step : Seriousness → String → σ → σ) (st : Process σ ε)
    (calls : List (Seriousness × String))
    (hret : ∀ s text env, st.self._errh.handle_text s text env = .returned (step s text env))
    (hall : ∀ c ∈ calls, c.1 < ERR_ERROR) :
    callSequence ERR_ERROR calls st
      = .returned { st with received := st.received ++ calls,
                            env := envAfter step st.env calls } := by
  rw [callSequence_of_returning ERR_ERROR step st.self hret calls st rfl,
    (throughFirstError_of_all_below ERR_ERROR calls hall).1,
    (throughFirstError_of_all_below ERR_ERROR calls hall).2]
  simp

/-- Witness of C6: two calls below ERR_ERROR = 3. -/
theorem callSequence_all_below_witness :
    (∀ s text env, printingProcess.self._errh.handle_text s text env
        = .returned ((fun _ t out => out ++ [t]) s text env))
      ∧ (∀ c ∈ [((0 : Seriousness), "starting up"), (2, "deprecated option")], c.1 < 3)
      ∧ callSequence 3 [(0, "starting up"), (2, "deprecated option")] printingProcess
          = .returned { printingProcess with
              received := [(0, "starting up"), (2, "deprecated option")],
              env := ["starting up", "deprecated option"] } :=
  ⟨fun _ _ _ => rfl, by decide,
    callSequence_all_below 3 (fun _ t out => out ++ [t]) printingProcess
      [(0, "starting up"), (2, "deprecated option")] (fun _ _ _ => rfl) (by decide)⟩

/-- C7: for every sequence of handle_text calls a client attempts on one
BailErrorHandler whose wrapped handler returns from every report, the wrapped
handler receives exactly the calls up to and including the first one whose
severity is >= ERR_ERROR and none of the later ones; when there is such a
call, the run ends with exit status 1 and control never comes back to the
client, and otherwise it comes back. -/
theorem callSequence_stops_at_first_error {σ ε : Type} (ERR_ERROR : Seriousness)
    (step : Seriousness → String → σ → σ) (st : Process σ ε)
    (calls : List (Seriousness × String))
    (hret : ∀ s text env, st.self._errh.handle_text s text env = .returned (step s text env)) :
    (callSequence ERR_ERROR calls st).state.received
        = st.received ++ throughFirstError ERR_ERROR calls
      ∧ (callSequence ERR_ERROR calls st).exitStatus
        = (if calls.any (fun c => decide (c.1 ≥ ERR_ERROR)) then some 1 else none)
      ∧ (callSequence ERR_ERROR calls st).isReturned
        = !(calls.any (fun c => decide (c.1 ≥ ERR_ERROR))) := by
  rw [callSequence_of_returning ERR_ERROR step st.self hret calls st rfl]
  cases calls.any (fun c => decide (c.1 ≥ ERR_ERROR)) <;>
    simp [Outcome.state, Outcome.exitStatus, Outcome.isReturned]

/-- Witness of C7: with ERR_ERROR = 3, the call with severity 3 is the last
one received; the two calls after it are never made. -/
theorem callSequence_stops_at_first_error_witness :
    (∀ s text env, printingProcess.self._errh.handle_text s text env
        = .returned ((fun _ t out => out ++ [t]) s text env))
      ∧ (callSequence 3 [(0, "a"), (3, "b"), (1, "c"), (4, "d")] printingProcess).state.received
          = printingProcess.received ++ [(0, "a"), (3, "b")]
      ∧ (callSequence 3 [(0, "a"), (3, "b"), (1, "c"), (4, "d")] printingProcess).exitStatus
          = some 1
      ∧ (callSequence 3 [(0, "a"), (3, "b"), (1, "c"), (4, "d")] printingProcess).isReturned
          = false :=
  ⟨fun _ _ _ => rfl,
    callSequence_stops_at_first_error 3 (fun _ t out => out ++ [t]) printingProcess
      [(0, "a"), (3, "b"), (1, "c"), (4, "d")] (fun _ _ _ => rfl)⟩

/-- C8: handle_text leaves the BailErrorHandler itself unchanged: after any
call that returns, the pointer _errh is the one held before, and the state
differs from the state before only by the one delegated report (the pair
joined to the received reports, and what the wrapped handler did to its own
environment). -/
theorem handle_text_keeps_errh {σ ε : Type} (ERR_ERROR s : Seriousness) (text : String)
    (st st1 : Process σ ε)
    (hcall : BailErrorHandler.handle_text ERR_ERROR s text st = .returned st1) :
    st1.self._errh = st.self._errh
      ∧ st1 = { st with received := st.received ++ [(s, text)],
                        env := (st.self._errh.handle_text s text st.env).state } := by
  have hstate := handle_text_state ERR_ERROR s text st
  rw [hcall] at hstate
  have h1 : st1 = { st with received := st.received ++ [(s, text)],
                            env := (st.self._errh.handle_text s text st.env).state } := hstate
  refine ⟨?_, h1⟩
  rw [h1]

/-- Witness of C8: a returning call with severity 1 below ERR_ERROR = 3. -/
theorem handle_text_keeps_errh_witness :
    BailErrorHandler.handle_text 3 1 "note" printingProcess
        = .returned { printingProcess with received := [(1, "note")], env := ["note"] }
      ∧ ({ printingProcess with received := [(1, "note")], env := ["note"] }
            : Process (List String) String).self._errh = printingProcess.self._errh
      ∧ ({ printingProcess with received := [(1, "note")], env := ["note"] }
            : Process (List String) String)
          = { printingProcess with
              received := printingProcess.received ++ [(1, "note")],
              env := (printingProcess.self._errh.handle_text 1 "note" printingProcess.env).state } :=
  ⟨rfl,
    handle_text_keeps_errh 3 1 "note" printingProcess
      { printingProcess with received := [(1, "note")], env := ["note"] } rfl⟩

/-- C9: whether handle_text ends the process, and with which status, depends
on the severity alone: for every severity s, any two texts and any two wrapped
handlers (in any two states) that both return from the delegated call, the two
calls either both return normally or both exit with status 1. -/
theorem exit_decided_by_severity {σ₁ σ₂ ε₁ ε₂ : Type} (ERR_ERROR s : Seriousness)
    (t1 t2 : String) (st1 : Process σ₁ ε₁) (st2 : Process σ₂ ε₂) (env1 : σ₁) (env2 : σ₂)
    (h1 : st1.self._errh.handle_text s t1 st1.env = .returned env1)
    (h2 : st2.self._errh.handle_text s t2 st2.env = .returned env2) :
    ((BailErrorHandler.handle_text ERR_ERROR s t1 st1).isReturned = true
        ∧ (BailErrorHandler.handle_text ERR_ERROR s t2 st2).isReturned = true)
      ∨ ((BailErrorHandler.handle_text ERR_ERROR s t1 st1).exitStatus = some 1
        ∧ (BailErrorHandler.handle_text ERR_ERROR s t2 st2).exitStatus = some 1) := by
  rw [handle_text_of_returned ERR_ERROR s t1 st1 env1 h1,
    handle_text_of_returned ERR_ERROR s t2 st2 env2 h2]
  by_cases hs : s ≥ ERR_ERROR
  · right
    simp [hs, Outcome.exitStatus]
  · left
    simp [hs, Outcome.isReturned]

/-- Witness of C9: two different wrapped handlers and two different texts at
severity 5, with ERR_ERROR = 3. -/
theorem exit_decided_by_severity_witness :
    printingProcess.self._errh.handle_text 5 "bad config" printingProcess.env
        = .returned ["bad config"]
      ∧ countingProcess.self._errh.handle_text 5 "" countingProcess.env = .returned 1
      ∧ (((BailErrorHandler.handle_text 3 5 "bad config" printingProcess).isReturned = true
          ∧ (BailErrorHandler.handle_text 3 5 "" countingProcess).isReturned = true)
        ∨ ((BailErrorHandler.handle_text 3 5 "bad config" printingProcess).exitStatus = some 1
          ∧ (BailErrorHandler.handle_text 3 5 "" countingProcess).exitStatus = some 1)) :=
  ⟨rfl, rfl,
    exit_decided_by_severity 3 5 "bad config" "" printingProcess countingProcess
      ["bad config"] 1 rfl rfl⟩

/-- C10: termination is monotone in the severity: for all severities s1 <= s2
and every text, with a wrapped handler that returns from both delegated calls,
if handle_text(s1, text) ends the process then handle_text(s2, text) ends it
too (with status 1), and if handle_text(s2, text) returns normally then so
does handle_text(s1, text). -/
theorem exit_monotone_in_severity {σ ε : Type} (ERR_ERROR s1 s2 : Seriousness) (text : String)
    (st : Process σ ε) (env1 env2 : σ) (hle : s1 ≤ s2)
    (h1 : st.self._errh.handle_text s1 text st.env = .returned env1)
    (h2 : st.self._errh.handle_text s2 text st.env = .returned env2) :
    ((BailErrorHandler.handle_text ERR_ERROR s1 text st).exitStatus ≠ none
        → (BailErrorHandler.handle_text ERR_ERROR s2 text st).exitStatus = some 1)
      ∧ ((BailErrorHandler.handle_text ERR_ERROR s2 text st).isReturned = true
        → (BailErrorHandler.handle_text ERR_ERROR s1 text st).isReturned = true) := by
  rw [handle_text_of_returned ERR_ERROR s1 text st env1 h1,
    handle_text_of_returned ERR_ERROR s2 text st env2 h2]
  by_cases hs1 : s1 ≥ ERR_ERROR
  · have hs2 : s2 ≥ ERR_ERROR := le_trans hs1 hle
    simp [hs1, hs2, Outcome.exitStatus, Outcome.isReturned]
  · by_cases hs2 : s2 ≥ ERR_ERROR <;>
      simp [hs1, hs2, Outcome.exitStatus, Outcome.isReturned]

/-- Witness of C10 at s1 = 3 = ERR_ERROR and s2 = 4. -/
theorem exit_monotone_in_severity_witness :
    (3 : Seriousness) ≤ 4
      ∧ printingProcess.self._errh.handle_text 3 "x" printingProcess.env = .returned ["x"]
      ∧ printingProcess.self._errh.handle_text 4 "x" printingProcess.env = .returned ["x"]
      ∧ ((BailErrorHandler.handle_text 3 3 "x" printingProcess).exitStatus ≠ none
          → (BailErrorHandler.handle_text 3 4 "x" printingProcess).exitStatus = some 1)
      ∧ ((BailErrorHandler.handle_text 3 4 "x" printingProcess).isReturned = true
          → (BailErrorHandler.handle_text 3 3 "x" printingProcess).isReturned = true) :=
  ⟨by decide, rfl, rfl,
    exit_monotone_in_severity 3 3 4 "x" printingProcess ["x"] ["x"] (by decide) rfl rfl⟩

end BailError
